import Mathlib

/-!
Verification of the questionnaire scoring engine of the ASD-detection
backend.

The engine is the JavaScript function `computeScore(answers, questionnaire)`
in `routes/assessments.js` (dynamic variant), together with the legacy
`computeMchatScore(answers)` (sum-based variant).  These are shallowly
embedded below: JavaScript values are the inductive `JsValue`, JavaScript
numbers are `JsNum` (finite rational, infinity, or NaN; the claims under
study involve only small integers, where IEEE double arithmetic is exact),
and the `Map`-based option table is an ordered association list with
JavaScript `Map.set` semantics.  `Number(string)` coercion is modelled for
whitespace, signed decimal literals and `Infinity`; exponent, hexadecimal,
octal and binary literals are not modelled (no claim mentions such inputs:
any string outside the modelled fragment is sent to NaN, exactly as the
claims' inputs are in JavaScript).
-/

namespace ASD

/-- Addition on ℚ written through `mkRat`, so that concrete witness values
evaluate by kernel reduction; `ratAdd_eq` identifies it with `+`. -/
def ratAdd (a b : ℚ) : ℚ :=
  mkRat (a.num * (b.den : Int) + b.num * (a.den : Int)) (a.den * b.den)

theorem ratAdd_eq (a b : ℚ) : ratAdd a b = a + b := by
  rw [ratAdd, Rat.add_def, Rat.normalize_eq_mkRat]

/-- JavaScript numbers: NaN, signed infinity, or a finite value (rational). -/
inductive JsNum where
  | nan : JsNum
  | inf : Bool → JsNum
  | fin : ℚ → JsNum
deriving DecidableEq, Repr

/-- JavaScript `+` on numbers: NaN propagates, infinities of opposite sign
give NaN, otherwise exact addition. -/
def JsNum.add : JsNum → JsNum → JsNum
  | .nan, _ => .nan
  | _, .nan => .nan
  | .inf p, .inf q => if p = q then .inf p else .nan
  | .inf p, .fin _ => .inf p
  | .fin _, .inf q => .inf q
  | .fin a, .fin b => .fin (ratAdd a b)

/-- JavaScript `>=`: false whenever NaN is involved. -/
def JsNum.ge : JsNum → JsNum → Bool
  | .nan, _ => false
  | _, .nan => false
  | .inf p, .inf q => p || !q
  | .inf p, .fin _ => p
  | .fin _, .inf q => !q
  | .fin a, .fin b => decide (b ≤ a)

/-- JavaScript `<=`: false whenever NaN is involved. -/
def JsNum.le : JsNum → JsNum → Bool
  | .nan, _ => false
  | _, .nan => false
  | .inf p, .inf q => q || !p
  | .inf p, .fin _ => !p
  | .fin _, .inf q => q
  | .fin a, .fin b => decide (a ≤ b)

/-- JavaScript `>`: false whenever NaN is involved. -/
def JsNum.gt : JsNum → JsNum → Bool
  | .nan, _ => false
  | _, .nan => false
  | .inf p, .inf q => p && !q
  | .inf p, .fin _ => p
  | .fin _, .inf q => !q
  | .fin a, .fin b => decide (b < a)

/-- Untyped JavaScript values as they occur in an answer set or an option
list: strings, numbers, booleans, null and undefined. -/
inductive JsValue where
  | vStr : String → JsValue
  | vNum : JsNum → JsValue
  | vBool : Bool → JsValue
  | vNull : JsValue
  | vUndefined : JsValue
deriving DecidableEq, Repr

/-- JavaScript `typeof v === 'string'`. -/
def JsValue.isStr : JsValue → Bool
  | .vStr _ => true
  | _ => false

/-- JavaScript truthiness of a value. -/
def jsTruthy : JsValue → Bool
  | .vStr s => !(s = "")
  | .vNum n => match n with
    | .nan => false
    | .inf _ => true
    | .fin q => !(q = 0)
  | .vBool b => b
  | .vNull => false
  | .vUndefined => false

/-- The whitespace class used by JavaScript string trimming and by `\s`
in the option regex (ASCII part; the inputs at stake use plain spaces). -/
def jsWhitespaceChar (c : Char) : Bool :=
  c = ' ' || c = '\t' || c = '\n' || c = '\r' || c = '\x0B' || c = '\x0C'

/-- Value of a string of decimal digits. -/
def digitsToNat (l : List Char) : Nat :=
  l.foldl (fun a c => 10 * a + (c.toNat - 48)) 0

/-- Unsigned decimal literal: digits, optionally a dot and more digits
(at least one digit overall), as accepted by JavaScript `Number`. -/
def parseUnsignedDecimal (cs : List Char) : Option ℚ :=
  let intPart := cs.takeWhile Char.isDigit
  match cs.drop intPart.length with
  | [] => if intPart = [] then none else some (digitsToNat intPart : ℚ)
  | '.' :: frac =>
      if frac.all Char.isDigit ∧ (intPart ≠ [] ∨ frac ≠ []) then
        some (mkRat ((digitsToNat intPart : Int) * (10 : Int) ^ frac.length + (digitsToNat frac : Int))
          ((10 : Nat) ^ frac.length))
      else none
  | _ => none

/-- JavaScript `Number(s)` for a string `s`: trim whitespace; empty gives 0;
optional sign, then a decimal literal or `Infinity`; anything else is NaN. -/
def strToNumber (s : String) : JsNum :=
  let cs := ((s.toList.dropWhile jsWhitespaceChar).reverse.dropWhile jsWhitespaceChar).reverse
  match cs with
  | [] => .fin 0
  | c :: rest =>
    let neg := c = '-'
    let body := if c = '-' ∨ c = '+' then rest else cs
    if body = "Infinity".toList then .inf (!neg)
    else match parseUnsignedDecimal body with
      | some q => .fin (if neg then -q else q)
      | none => .nan

/-- JavaScript `Number(v)` on an arbitrary value. -/
def jsToNumber : JsValue → JsNum
  | .vStr s => strToNumber s
  | .vNum n => n
  | .vBool b => .fin (if b then 1 else 0)
  | .vNull => .fin 0
  | .vUndefined => .nan

/-- ASCII lowercase of one character (the answer labels and options at
stake are ASCII, where JavaScript `toLowerCase` is exactly this map). -/
def lowerChar (c : Char) : Char :=
  if 65 ≤ c.toNat ∧ c.toNat ≤ 90 then Char.ofNat (c.toNat + 32) else c

/-- JavaScript `s.toLowerCase()` on ASCII strings. -/
def jsToLower (s : String) : String := String.mk (s.data.map lowerChar)

/-- The regex `^\s*(\d+)\s+` of `buildOptionScoreMap`: an optional run of
whitespace, then at least one digit, then at least one whitespace character;
returns the value of the digit group when it matches. -/
def leadingIntToken (s : String) : Option Nat :=
  let cs := s.toList.dropWhile jsWhitespaceChar
  let ds := cs.takeWhile Char.isDigit
  match ds, cs.drop ds.length with
  | _ :: _, c :: _ => if jsWhitespaceChar c then some (digitsToNat ds) else none
  | _, _ => none

/-- Keys of the embedded `Map`, in insertion order. -/
def jsMapKeys (m : List (String × Nat)) : List String := m.map Prod.fst

/-- JavaScript `map.has(k)`. -/
def jsMapHas (m : List (String × Nat)) (k : String) : Bool :=
  m.any (fun p => p.1 == k)

/-- JavaScript `map.get(k)` (none when absent, i.e. undefined). -/
def jsMapGet (m : List (String × Nat)) (k : String) : Option Nat :=
  (m.find? (fun p => p.1 == k)).map Prod.snd

/-- JavaScript `map.set(k, v)`: update in place when the key exists (keeping its
insertion position), else append. -/
def jsMapSet (m : List (String × Nat)) (k : String) (v : Nat) : List (String × Nat) :=
  if jsMapHas m k then m.map (fun p => if p.1 == k then (k, v) else p)
  else m ++ [(k, v)]

/-- The `opts.forEach((opt, idx) => ...)` loop of `buildOptionScoreMap`:
for each string option, set its decoded value (leading integer token if
present, else its index); non-string options are skipped. -/
def buildOptionScoreMapAux : List JsValue → Nat → List (String × Nat) → List (String × Nat)
  | [], _, m => m
  | .vStr s :: rest, idx, m =>
      buildOptionScoreMapAux rest (idx + 1) (jsMapSet m s ((leadingIntToken s).getD idx))
  | _ :: rest, idx, m => buildOptionScoreMapAux rest (idx + 1) m

/-- The full `buildOptionScoreMap(opts)` helper of `computeScore`. -/
def buildOptionScoreMap (opts : List JsValue) : List (String × Nat) :=
  buildOptionScoreMapAux opts 0 []

/-- The reduce callback of the multi-choice branch: exact lookup first,
then case-insensitive lookup over the map's keys, else add nothing;
non-string answer values add nothing. -/
def optionStep (m : List (String × Nat)) (sum : ℚ) (val : JsValue) : ℚ :=
  match val with
  | .vStr s =>
    if jsMapHas m s then ratAdd sum ((jsMapGet m s).getD 0 : ℚ)
    else
      match (jsMapKeys m).find? (fun k => jsToLower k == jsToLower s) with
      | some k2 => ratAdd sum ((jsMapGet m k2).getD 0 : ℚ)
      | none => sum
  | _ => sum

/-- The reduce callback of the numeric fallback branch: add `Number(v)`
when it is finite, else add nothing. -/
def numericStep (sum : ℚ) (v : JsValue) : ℚ :=
  match jsToNumber v with
  | .fin n => ratAdd sum n
  | _ => sum

/-- The predicate of the binary-path guard:
`typeof v === 'string' && (v.toLowerCase() === 'yes' || v.toLowerCase() === 'no')`. -/
def isYesNo : JsValue → Bool
  | .vStr s => jsToLower s == "yes" || jsToLower s == "no"
  | _ => false

/-- The filter of the binary path: `(a || '').toLowerCase() === 'yes'`.
Truthy non-string values never reach this filter (the binary-path guard
allows only strings), so only the string and falsy cases are modelled. -/
def yesPred : JsValue → Bool
  | .vStr s => jsToLower (if s = "" then "" else s) == "yes"
  | _ => false

/-- One entry of `questionnaire.scoringRules` (Mongoose schema: `minScore`
required number, `maxScore` optional number, `riskLevel` string). -/
structure ScoringRule where
  minScore : ℚ
  maxScore : Option ℚ
  riskLevel : String
deriving DecidableEq, Repr

/-- The fields of a questionnaire document that `computeScore` reads.
An absent `answerOptions` or `scoringRules` behaves exactly like an empty
list in `computeScore`, so both are modelled as the empty list. -/
structure Questionnaire where
  answerOptions : List JsValue
  scoringRules : List ScoringRule
deriving DecidableEq, Repr

/-- The result `{ score, risk }` of `computeScore` (its score is always a
finite number: every branch sums finite values starting from 0). -/
structure ScoreResult where
  score : ℚ
  risk : String
deriving DecidableEq, Repr

/-- The range test `totalScore >= rule.minScore && (rule.maxScore === undefined || totalScore <= rule.maxScore)`. -/
def ruleMatches (total : ℚ) (r : ScoringRule) : Bool :=
  decide (r.minScore ≤ total) &&
    (match r.maxScore with
     | none => true
     | some mx => decide (total ≤ mx))

/-- The rule loop: first matching rule wins; the initial value `'Low'`
survives when no rule matches. -/
def riskFromRules : List ScoringRule → ℚ → String
  | [], _ => "Low"
  | r :: rs, total => if ruleMatches total r then r.riskLevel else riskFromRules rs total

/-- The hardcoded fallback thresholds used when the questionnaire has no
scoring rules. -/
def fallbackRisk (total : ℚ) : String :=
  if 3 ≤ total ∧ total ≤ 6 then "Medium"
  else if 6 < total then "High"
  else "Low"

/-- JavaScript `Object.values(answers)` of an answer set (an ordered key-value map). -/
def answerValues (answers : List (String × JsValue)) : List JsValue :=
  answers.map Prod.snd

/-- The dynamic `computeScore(answers, questionnaire)` of
`routes/assessments.js`: binary yes/no path, multi-choice path over
`answerOptions`, numeric fallback path; then risk from `scoringRules` or
from the hardcoded fallback. -/
def computeScore (answers : List (String × JsValue)) (q : Questionnaire) : ScoreResult :=
  let vals := answerValues answers
  let totalScore : ℚ :=
    if vals.all isYesNo then ((vals.filter yesPred).length : ℚ)
    else if q.answerOptions ≠ [] then
      vals.foldl (optionStep (buildOptionScoreMap q.answerOptions)) 0
    else vals.foldl numericStep 0
  let risk : String :=
    if q.scoringRules ≠ [] then riskFromRules q.scoringRules totalScore
    else fallbackRisk totalScore
  ⟨totalScore, risk⟩

/-- The result of the legacy `computeMchatScore` (its score can be NaN,
since `Number` is applied to arbitrary answer values). -/
structure MchatResult where
  score : JsNum
  risk : String
deriving DecidableEq, Repr

/-- The legacy `computeMchatScore(answers)` of `routes/assessments.js`:
`Object.values(answers).reduce((a, b) => a + Number(b || 0), 0)`, then the
hardcoded thresholds with JavaScript comparisons (false on NaN). -/
def computeMchatScore (answers : List (String × JsValue)) : MchatResult :=
  let score := (answerValues answers).foldl
    (fun a b => JsNum.add a (jsToNumber (if jsTruthy b then b else JsValue.vNum (.fin 0))))
    (.fin 0)
  let risk : String :=
    if JsNum.ge score (.fin 3) && JsNum.le score (.fin 6) then "Medium"
    else if JsNum.gt score (.fin 6) then "High"
    else "Low"
  ⟨score, risk⟩

/-! ### Characterisation lemmas for the embedded engine -/

/-- Amount the multi-choice reduce callback adds for one answer value. -/
def optionContrib (m : List (String × Nat)) : JsValue → ℚ
  | .vStr s =>
    if jsMapHas m s then ((jsMapGet m s).getD 0 : ℚ)
    else
      match (jsMapKeys m).find? (fun k => jsToLower k == jsToLower s) with
      | some k2 => ((jsMapGet m k2).getD 0 : ℚ)
      | none => 0
  | _ => 0

/-- Amount the numeric-fallback reduce callback adds for one answer value. -/
def numContrib (v : JsValue) : ℚ :=
  match jsToNumber v with
  | .fin n => n
  | _ => 0

theorem optionStep_eq_add (m : List (String × Nat)) (s : ℚ) (v : JsValue) :
    optionStep m s v = s + optionContrib m v := by
  cases v with
  | vStr str =>
    by_cases h : jsMapHas m str = true
    · simp [optionStep, optionContrib, h, ratAdd_eq]
    · have h' : jsMapHas m str = false := by simpa using h
      cases hf : (jsMapKeys m).find? (fun k => jsToLower k == jsToLower str) with
      | none => simp [optionStep, optionContrib, h', hf]
      | some k2 => simp [optionStep, optionContrib, h', hf, ratAdd_eq]
  | vNum n => simp [optionStep, optionContrib]
  | vBool b => simp [optionStep, optionContrib]
  | vNull => simp [optionStep, optionContrib]
  | vUndefined => simp [optionStep, optionContrib]

theorem numericStep_eq_add (s : ℚ) (v : JsValue) :
    numericStep s v = s + numContrib v := by
  cases hn : jsToNumber v <;> simp [numericStep, numContrib, hn, ratAdd_eq]

theorem foldl_eq_add_sum (f : ℚ → JsValue → ℚ) (c : JsValue → ℚ)
    (hf : ∀ s v, f s v = s + c v) :
    ∀ (l : List JsValue) (s : ℚ), l.foldl f s = s + (l.map c).sum
  | [], s => by simp
  | v :: l, s => by
    rw [List.foldl_cons, hf, foldl_eq_add_sum f c hf l (s + c v), List.map_cons,
      List.sum_cons, add_assoc]

theorem riskFromRules_eq_find (rules : List ScoringRule) (t : ℚ) :
    riskFromRules rules t =
      match rules.find? (ruleMatches t) with
      | some r => r.riskLevel
      | none => "Low" := by
  induction rules with
  | nil => rfl
  | cons r rs ih =>
    by_cases h : ruleMatches t r = true
    · simp [riskFromRules, h, List.find?_cons_of_pos]
    · have h' : ruleMatches t r = false := by simpa using h
      rw [List.find?_cons_of_neg _ (by simp [h'])]
      simp [riskFromRules, h', ih]

theorem computeScore_score (answers : List (String × JsValue)) (q : Questionnaire) :
    (computeScore answers q).score =
      if (answerValues answers).all isYesNo then
        (((answerValues answers).filter yesPred).length : ℚ)
      else if q.answerOptions ≠ [] then
        (answerValues answers).foldl (optionStep (buildOptionScoreMap q.answerOptions)) 0
      else (answerValues answers).foldl numericStep 0 := rfl

theorem computeScore_risk (answers : List (String × JsValue)) (q : Questionnaire) :
    (computeScore answers q).risk =
      if q.scoringRules ≠ [] then riskFromRules q.scoringRules (computeScore answers q).score
      else fallbackRisk (computeScore answers q).score := rfl

theorem computeScore_score_binary (answers : List (String × JsValue)) (q : Questionnaire)
    (h : (answerValues answers).all isYesNo = true) :
    (computeScore answers q).score = (((answerValues answers).filter yesPred).length : ℚ) := by
  rw [computeScore_score, if_pos h]

theorem computeScore_score_options (answers : List (String × JsValue)) (q : Questionnaire)
    (h1 : (answerValues answers).all isYesNo = false) (h2 : q.answerOptions ≠ []) :
    (computeScore answers q).score =
      ((answerValues answers).map (optionContrib (buildOptionScoreMap q.answerOptions))).sum := by
  rw [computeScore_score, if_neg (by simp [h1]), if_pos h2,
    foldl_eq_add_sum _ _ (optionStep_eq_add _), zero_add]

theorem computeScore_score_numeric (answers : List (String × JsValue)) (q : Questionnaire)
    (h1 : (answerValues answers).all isYesNo = false) (h2 : q.answerOptions = []) :
    (computeScore answers q).score = ((answerValues answers).map numContrib).sum := by
  rw [computeScore_score, if_neg (by simp [h1]), if_neg (by simp [h2]),
    foldl_eq_add_sum _ _ numericStep_eq_add, zero_add]

/-! ### The spec-side decode table (for comparison with `buildOptionScoreMap`) -/

/-- The string entries of an option list, in order. -/
def stringOpts (opts : List JsValue) : List String :=
  opts.filterMap (fun o => match o with | .vStr s => some s | _ => none)

/-- Decode table as the spec words it: each option string paired with its
decoded value, a leading integer token if present, else its zero-based
position in the option sequence. -/
def specTable : List JsValue → Nat → List (String × Nat)
  | [], _ => []
  | .vStr s :: rest, i => (s, (leadingIntToken s).getD i) :: specTable rest (i + 1)
  | _ :: rest, i => specTable rest (i + 1)

/-- Lookup as the spec words it: exact string match first, then
case-insensitive match; unmatched values give 0. -/
def specLookup (t : List (String × Nat)) (s : String) : ℚ :=
  match t.find? (fun p => p.1 == s) with
  | some p => (p.2 : ℚ)
  | none =>
    match t.find? (fun p => jsToLower p.1 == jsToLower s) with
    | some p => (p.2 : ℚ)
    | none => 0

/-- Decoded value of one answer value per the spec's words: string values
are looked up in the decode table, anything else contributes 0. -/
def specDecode (opts : List JsValue) : JsValue → ℚ
  | .vStr s => specLookup (specTable opts 0) s
  | _ => 0

theorem specTable_keys (opts : List JsValue) : ∀ i, jsMapKeys (specTable opts i) = stringOpts opts := by
  induction opts with
  | nil => intro i; rfl
  | cons o rest ih =>
    intro i
    cases o <;> simp [specTable, stringOpts, jsMapKeys] <;>
      simpa [stringOpts, jsMapKeys] using ih (i + 1)

theorem jsMapSet_of_not_has (m : List (String × Nat)) (k : String) (v : Nat)
    (h : jsMapHas m k = false) : jsMapSet m k v = m ++ [(k, v)] := by
  simp [jsMapSet, h]

theorem jsMapHas_append (m m' : List (String × Nat)) (k : String) :
    jsMapHas (m ++ m') k = (jsMapHas m k || jsMapHas m' k) := by
  simp [jsMapHas, List.any_append]

theorem buildOptionScoreMapAux_eq (opts : List JsValue) :
    ∀ (i : Nat) (m : List (String × Nat)),
      (stringOpts opts).Nodup →
      (∀ s ∈ stringOpts opts, jsMapHas m s = false) →
      buildOptionScoreMapAux opts i m = m ++ specTable opts i := by
  induction opts with
  | nil => intro i m _ _; simp [buildOptionScoreMapAux, specTable]
  | cons o rest ih =>
    intro i m hnd hdisj
    cases o with
    | vStr s =>
      have hcons : stringOpts (JsValue.vStr s :: rest) = s :: stringOpts rest := by
        simp [stringOpts]
      rw [hcons] at hnd hdisj
      have hs : jsMapHas m s = false := hdisj s (List.mem_cons_self _ _)
      have hnotin : s ∉ stringOpts rest := (List.nodup_cons.mp hnd).1
      have hnd' : (stringOpts rest).Nodup := (List.nodup_cons.mp hnd).2
      rw [show buildOptionScoreMapAux (JsValue.vStr s :: rest) i m
            = buildOptionScoreMapAux rest (i + 1) (jsMapSet m s ((leadingIntToken s).getD i))
          from rfl,
        jsMapSet_of_not_has m s _ hs,
        ih (i + 1) _ hnd' ?_]
      · simp [specTable]
      · intro t ht
        have hts : t ≠ s := fun he => hnotin (he ▸ ht)
        have h1 : jsMapHas m t = false := hdisj t (List.mem_cons_of_mem _ ht)
        rw [jsMapHas_append, h1, Bool.false_or]
        simp [jsMapHas, Ne.symm hts]
    | vNum n =>
      have hcons : stringOpts (JsValue.vNum n :: rest) = stringOpts rest := by simp [stringOpts]
      rw [hcons] at hnd hdisj
      rw [show buildOptionScoreMapAux (JsValue.vNum n :: rest) i m
            = buildOptionScoreMapAux rest (i + 1) m from rfl, ih (i + 1) m hnd hdisj]
      rfl
    | vBool b =>
      have hcons : stringOpts (JsValue.vBool b :: rest) = stringOpts rest := by simp [stringOpts]
      rw [hcons] at hnd hdisj
      rw [show buildOptionScoreMapAux (JsValue.vBool b :: rest) i m
            = buildOptionScoreMapAux rest (i + 1) m from rfl, ih (i + 1) m hnd hdisj]
      rfl
    | vNull =>
      have hcons : stringOpts (JsValue.vNull :: rest) = stringOpts rest := by simp [stringOpts]
      rw [hcons] at hnd hdisj
      rw [show buildOptionScoreMapAux (JsValue.vNull :: rest) i m
            = buildOptionScoreMapAux rest (i + 1) m from rfl, ih (i + 1) m hnd hdisj]
      rfl
    | vUndefined =>
      have hcons : stringOpts (JsValue.vUndefined :: rest) = stringOpts rest := by
        simp [stringOpts]
      rw [hcons] at hnd hdisj
      rw [show buildOptionScoreMapAux (JsValue.vUndefined :: rest) i m
            = buildOptionScoreMapAux rest (i + 1) m from rfl, ih (i + 1) m hnd hdisj]
      rfl

theorem buildOptionScoreMap_eq_specTable (opts : List JsValue)
    (h : (stringOpts opts).Nodup) : buildOptionScoreMap opts = specTable opts 0 := by
  rw [buildOptionScoreMap, buildOptionScoreMapAux_eq opts 0 [] h (fun s _ => rfl)]
  rfl

theorem jsMapHas_eq_isSome (m : List (String × Nat)) (k : String) :
    jsMapHas m k = (m.find? (fun p => p.1 == k)).isSome := by
  induction m with
  | nil => rfl
  | cons p m ih =>
    by_cases h : (p.1 == k) = true
    · simp [jsMapHas, List.any_cons, h, List.find?_cons_of_pos]
    · have h' : (p.1 == k) = false := by simpa using h
      rw [List.find?_cons_of_neg _ (by simp [h'])]
      simp [jsMapHas, List.any_cons, h'] at ih ⊢
      exact ih

theorem find?_key_of_nodup (m : List (String × Nat)) (hm : (jsMapKeys m).Nodup)
    (p : String × Nat) (hp : p ∈ m) : m.find? (fun x => x.1 == p.1) = some p := by
  induction m with
  | nil => cases hp
  | cons q m ih =>
    rw [jsMapKeys, List.map_cons, List.nodup_cons] at hm
    rcases List.mem_cons.mp hp with he | hm'
    · subst he
      exact List.find?_cons_of_pos _ (by simp)
    · by_cases hq : q.1 = p.1
      · exact absurd (hq ▸ List.mem_map_of_mem Prod.fst hm') hm.1
      · rw [List.find?_cons_of_neg _ (by simpa using hq)]
        exact ih hm.2 hm'

theorem optionContrib_eq_specLookup (m : List (String × Nat))
    (hm : (jsMapKeys m).Nodup) (s : String) :
    optionContrib m (.vStr s) = specLookup m s := by
  cases hfind : m.find? (fun p => p.1 == s) with
  | some p =>
    have hhas : jsMapHas m s = true := by rw [jsMapHas_eq_isSome, hfind]; rfl
    simp [optionContrib, specLookup, hhas, hfind, jsMapGet]
  | none =>
    have hhas : jsMapHas m s = false := by rw [jsMapHas_eq_isSome, hfind]; rfl
    have hkeys : ∀ o : Option (String × Nat),
        m.find? (fun p => jsToLower p.1 == jsToLower s) = o →
        (jsMapKeys m).find? (fun k => jsToLower k == jsToLower s) = o.map Prod.fst := by
      intro o ho
      rw [jsMapKeys, List.find?_map,
        show ((fun k => jsToLower k == jsToLower s) ∘ Prod.fst)
          = (fun p : String × Nat => jsToLower p.1 == jsToLower s) from rfl, ho]
    cases hci : m.find? (fun p => jsToLower p.1 == jsToLower s) with
    | none =>
      simp [optionContrib, specLookup, hhas, hfind, hci, hkeys none hci]
    | some p =>
      have hget : jsMapGet m p.1 = some p.2 := by
        rw [jsMapGet, find?_key_of_nodup m hm p (List.mem_of_find?_eq_some hci)]
        rfl
      simp [optionContrib, specLookup, hhas, hfind, hci, hkeys (some p) hci, hget]

theorem optionContrib_specTable_eq_specDecode (opts : List JsValue)
    (h : (stringOpts opts).Nodup) :
    optionContrib (buildOptionScoreMap opts) = specDecode opts := by
  funext v
  rw [buildOptionScoreMap_eq_specTable opts h]
  cases v with
  | vStr s =>
    exact optionContrib_eq_specLookup _ (by rw [specTable_keys opts 0]; exact h) s
  | vNum n => rfl
  | vBool b => rfl
  | vNull => rfl
  | vUndefined => rfl

/-- The binary-path filter counts exactly the case-insensitive "yes" values. -/
def isYesAnswer : JsValue → Bool
  | .vStr s => jsToLower s == "yes"
  | _ => false

theorem yesPred_eq_isYesAnswer : yesPred = isYesAnswer := by
  funext v
  cases v with
  | vStr s =>
    by_cases h : s = ""
    · subst h; rfl
    · simp [yesPred, isYesAnswer, h]
  | vNum n => rfl
  | vBool b => rfl
  | vNull => rfl
  | vUndefined => rfl

/-- The risk bucket the spec assigns to score 0: the first configured rule
covering 0, else "Low". -/
def riskForScoreZero (q : Questionnaire) : String :=
  match q.scoringRules.find? (ruleMatches 0) with
  | some r => r.riskLevel
  | none => "Low"

/-! ### Concrete inputs for counterexamples and witnesses -/

/-- An answer set of `n` distinct keys, each answered "yes". -/
def yesAnswers (n : Nat) : List (String × JsValue) :=
  (List.range n).map (fun i => (Nat.repr i, JsValue.vStr "yes"))

/-- The spec's example rule set: Low 0-2, Medium 3-6, High from 7 up. -/
def exampleRules : List ScoringRule := [⟨0, some 2, "Low"⟩, ⟨3, some 6, "Medium"⟩, ⟨7, none, "High"⟩]

def exampleRulesQ : Questionnaire := ⟨[], exampleRules⟩

/-- A questionnaire with no options and no scoring rules. -/
def noRulesQ : Questionnaire := ⟨[], []⟩

/-- A single rule covering only 0..2, leaving a gap above. -/
def gapRule : ScoringRule := ⟨0, some 2, "Low"⟩

def gapQ : Questionnaire := ⟨[], [gapRule]⟩

/-- The spec's legacy-path scenario answers. -/
def mchatAnswers : List (String × JsValue) :=
  [("q1", .vStr "yes"), ("q2", .vStr "no"), ("q3", .vStr "yes")]

/-- Answers whose non-empty values are all yes/no but which contain an
empty-string value. -/
def mixedAnswers : List (String × JsValue) := [("q1", .vStr "yes"), ("q2", .vStr "")]

def optsExample : List JsValue := [.vStr "0 Never", .vStr "1 Sometimes", .vStr "10 Always"]

def optsQ : Questionnaire := ⟨optsExample, []⟩

/-- Multi-choice answers: one exact match, one case-insensitive match, one
unmatched value. -/
def optAnswers : List (String × JsValue) :=
  [("q1", .vStr "10 Always"), ("q2", .vStr "1 sometimes"), ("q3", .vStr "junk")]

def numMixQ : Questionnaire := ⟨[.vStr "0 Never", .vStr "1 Sometimes"], []⟩

/-- A raw number answer next to an option-label answer. -/
def numMixAnswers : List (String × JsValue) :=
  [("q1", .vNum (.fin 1)), ("q2", .vStr "1 Sometimes")]

/-! ### The claims -/

/-- C1 counterexample: with the non-empty rule list `[0..2 Low]` and four
"yes" answers the score is 4, no rule matches, yet the engine returns the
default "Low" and not the hardcoded fallback bucket "Medium" for 4; the
claim that the fallback applies whenever no rule matches is false. -/
theorem claim_C1_counterexample :
    gapQ.scoringRules = [gapRule]
    ∧ ruleMatches (computeScore (yesAnswers 4) gapQ).score gapRule = false
    ∧ fallbackRisk (computeScore (yesAnswers 4) gapQ).score = "Medium"
    ∧ (computeScore (yesAnswers 4) gapQ).risk = "Low"
    ∧ "Low" ≠ "Medium" := by
  refine ⟨rfl, by decide, by decide, by decide, by decide⟩

/-- C1 (amended): when the ScoringRule list is non-empty but contains no
rule matching the computed score, the engine classifies the score as the
default "Low" (the initialisation value); the hardcoded generic fallback
runs only when the rule list is empty. -/
theorem claim_C1 (answers : List (String × JsValue)) (q : Questionnaire)
    (hne : q.scoringRules ≠ [])
    (hnomatch : ∀ r ∈ q.scoringRules, ruleMatches (computeScore answers q).score r = false) :
    (computeScore answers q).risk = "Low" := by
  rw [computeScore_risk, if_pos hne, riskFromRules_eq_find,
    List.find?_eq_none.mpr (fun r hr => by simp [hnomatch r hr])]

/-- C1 witness: five "yes" answers against the gap rule set. -/
theorem claim_C1_witness :
    gapQ.scoringRules ≠ []
    ∧ (∀ r ∈ gapQ.scoringRules, ruleMatches (computeScore (yesAnswers 5) gapQ).score r = false)
    ∧ (computeScore (yesAnswers 5) gapQ).risk = "Low" :=
  ⟨by decide, by decide, claim_C1 (yesAnswers 5) gapQ (by decide) (by decide)⟩

/-- C2 counterexample: in `{q1:"yes", q2:""}` every non-empty answer value
is case-insensitively yes/no, yet the binary-path guard is false (the empty
string fails it) and the engine returns score 0, not the yes-count 1. -/
theorem claim_C2_counterexample :
    ((answerValues mixedAnswers).filter (fun v => !(v == JsValue.vStr ""))).all isYesNo = true
    ∧ (answerValues mixedAnswers).all isYesNo = false
    ∧ ((answerValues mixedAnswers).countP isYesAnswer : ℚ) = 1
    ∧ (computeScore mixedAnswers noRulesQ).score = 0
    ∧ (0 : ℚ) ≠ 1 := by
  refine ⟨by decide, by decide, by decide, by decide, by decide⟩

/-- C2 (amended): when every answer value (empty strings included) is a
string that case-insensitively equals "yes" or "no", the engine takes the
binary path and the score is the count of case-insensitive "yes" values. -/
theorem claim_C2 (answers : List (String × JsValue)) (q : Questionnaire)
    (h : (answerValues answers).all isYesNo = true) :
    (computeScore answers q).score = ((answerValues answers).countP isYesAnswer : ℚ) := by
  rw [computeScore_score_binary answers q h, yesPred_eq_isYesAnswer,
    List.countP_eq_length_filter]

/-- C2 witness: three "yes" and one "No" answer give score 3. -/
theorem claim_C2_witness :
    (answerValues (yesAnswers 3 ++ [("qq", JsValue.vStr "No")])).all isYesNo = true
    ∧ (computeScore (yesAnswers 3 ++ [("qq", JsValue.vStr "No")]) noRulesQ).score
        = ((answerValues (yesAnswers 3 ++ [("qq", JsValue.vStr "No")])).countP isYesAnswer : ℚ) :=
  ⟨by decide, claim_C2 (yesAnswers 3 ++ [("qq", JsValue.vStr "No")]) noRulesQ (by decide)⟩

/-- C3: on the multi-choice path (binary guard false, non-empty option
list) the score is the sum over all answer values of the spec's decoded
value: an option string with a leading integer token decodes to that
integer, any other option string to its zero-based position; each answer
value is looked up by exact match first, then case-insensitively; unmatched
or non-string values contribute 0.  Stated for option lists whose string
entries are pairwise distinct, where the decode table is well defined. -/
theorem claim_C3 (answers : List (String × JsValue)) (q : Questionnaire)
    (h1 : (answerValues answers).all isYesNo = false)
    (h2 : q.answerOptions ≠ [])
    (h3 : (stringOpts q.answerOptions).Nodup) :
    (computeScore answers q).score
      = ((answerValues answers).map (specDecode q.answerOptions)).sum := by
  rw [computeScore_score_options answers q h1 h2,
    optionContrib_specTable_eq_specDecode _ h3]

/-- C3 witness: options `["0 Never","1 Sometimes","10 Always"]` with an
exact match "10 Always" (decoding to 10, not to its index 2), a
case-insensitive match "1 sometimes" and an unmatched "junk" give 11. -/
theorem claim_C3_witness :
    (answerValues optAnswers).all isYesNo = false
    ∧ optsQ.answerOptions ≠ []
    ∧ (stringOpts optsQ.answerOptions).Nodup
    ∧ (computeScore optAnswers optsQ).score
        = ((answerValues optAnswers).map (specDecode optsQ.answerOptions)).sum
    ∧ (computeScore optAnswers optsQ).score = 11
    ∧ specDecode optsQ.answerOptions (JsValue.vStr "10 Always") = 10 :=
  ⟨by decide, by decide, by decide,
   claim_C3 optAnswers optsQ (by decide) (by decide) (by decide), by decide, by decide⟩

/-- C4: on an empty answer set the engine returns score 0, and the risk is
the riskLevel of the first configured rule whose range covers 0, or "Low"
(which is also the hardcoded fallback bucket for 0) when no rule covers 0
or no rules exist. -/
theorem claim_C4 (q : Questionnaire) : computeScore [] q = ⟨0, riskForScoreZero q⟩ := by
  have hscore : (computeScore [] q).score = 0 := by
    rw [computeScore_score_binary [] q rfl]
    simp [answerValues]
  have hrisk : (computeScore [] q).risk = riskForScoreZero q := by
    rw [computeScore_risk]
    by_cases h : q.scoringRules = []
    · rw [if_neg (by simp [h]), hscore]
      norm_num [riskForScoreZero, h, fallbackRisk]
    · rw [if_pos h, riskFromRules_eq_find, hscore]
      rfl
  rw [show computeScore [] q
      = ⟨(computeScore [] q).score, (computeScore [] q).risk⟩ from rfl, hscore, hrisk]

/-- C4 witness: against the example rule set, the empty answer set scores 0
and lands in the first rule covering 0, which is "Low". -/
theorem claim_C4_witness :
    computeScore [] exampleRulesQ = ⟨0, riskForScoreZero exampleRulesQ⟩
    ∧ riskForScoreZero exampleRulesQ = "Low" :=
  ⟨claim_C4 exampleRulesQ, by decide⟩

/-- C5: risk classification returns the riskLevel of the first rule (in
declaration order) matching the score, and on the example rule set
`[0-2 Low, 3-6 Medium, 7- High]` a score of 7 yields High (absent maxScore
is open-ended upward), 6 yields Medium and 0 yields Low. -/
theorem claim_C5 :
    (∀ (answers : List (String × JsValue)) (q : Questionnaire) (r : ScoringRule),
       q.scoringRules.find? (ruleMatches (computeScore answers q).score) = some r →
       (computeScore answers q).risk = r.riskLevel)
    ∧ computeScore (yesAnswers 7) exampleRulesQ = ⟨7, "High"⟩
    ∧ computeScore (yesAnswers 6) exampleRulesQ = ⟨6, "Medium"⟩
    ∧ computeScore [] exampleRulesQ = ⟨0, "Low"⟩ := by
  refine ⟨?_, by decide, by decide, by decide⟩
  intro answers q r hfind
  have hne : q.scoringRules ≠ [] := by
    intro h
    rw [h] at hfind
    cases hfind
  rw [computeScore_risk, if_pos hne, riskFromRules_eq_find, hfind]

/-- C5 witness: on the example rules, 7 "yes" answers are classified by the
open-ended third rule. -/
theorem claim_C5_witness :
    exampleRulesQ.scoringRules.find?
        (ruleMatches (computeScore (yesAnswers 7) exampleRulesQ).score)
      = some ⟨7, none, "High"⟩
    ∧ (computeScore (yesAnswers 7) exampleRulesQ).risk = "High" :=
  ⟨by decide, claim_C5.1 (yesAnswers 7) exampleRulesQ ⟨7, none, "High"⟩ (by decide)⟩

/-- C6: with an empty (or absent) rule list the engine applies the
hardcoded fallback thresholds; concretely score 4 gives Medium, 8 gives
High and 1 gives Low. -/
theorem claim_C6 :
    (∀ (answers : List (String × JsValue)) (q : Questionnaire), q.scoringRules = [] →
       (computeScore answers q).risk = fallbackRisk (computeScore answers q).score)
    ∧ computeScore (yesAnswers 4) noRulesQ = ⟨4, "Medium"⟩
    ∧ computeScore (yesAnswers 8) noRulesQ = ⟨8, "High"⟩
    ∧ computeScore (yesAnswers 1) noRulesQ = ⟨1, "Low"⟩ := by
  refine ⟨?_, by decide, by decide, by decide⟩
  intro answers q h
  rw [computeScore_risk, if_neg (by simp [h])]

/-- C6 witness: two "yes" answers against the rule-less questionnaire. -/
theorem claim_C6_witness :
    noRulesQ.scoringRules = []
    ∧ (computeScore (yesAnswers 2) noRulesQ).risk
        = fallbackRisk (computeScore (yesAnswers 2) noRulesQ).score :=
  ⟨rfl, claim_C6.1 (yesAnswers 2) noRulesQ rfl⟩

/-- C7: the engine degrades gracefully on null answer values: a null value
never satisfies the binary-path guard, prepending a null-valued answer to
any answer set that is off the binary path changes neither score nor risk
(it contributes exactly 0 on both remaining paths), and a lone null answer
scores 0 against every questionnaire; the embedding itself is a total
function on all `JsValue` inputs, so no input signals an error. -/
theorem claim_C7 :
    (∀ (q : Questionnaire) (k : String) (answers : List (String × JsValue)),
       (answerValues answers).all isYesNo = false →
       computeScore ((k, JsValue.vNull) :: answers) q = computeScore answers q)
    ∧ (∀ vs : List JsValue, JsValue.vNull ∈ vs → vs.all isYesNo = false)
    ∧ (∀ (q : Questionnaire) (k : String), (computeScore [(k, JsValue.vNull)] q).score = 0) := by
  refine ⟨?_, ?_, ?_⟩
  · intro q k answers h
    have hvals : answerValues ((k, JsValue.vNull) :: answers)
        = JsValue.vNull :: answerValues answers := rfl
    have hall : (answerValues ((k, JsValue.vNull) :: answers)).all isYesNo = false := by
      rw [hvals]
      simp [List.all_cons, isYesNo]
    have hscore : (computeScore ((k, JsValue.vNull) :: answers) q).score
        = (computeScore answers q).score := by
      by_cases hopt : q.answerOptions = []
      · rw [computeScore_score_numeric _ q hall hopt,
          computeScore_score_numeric _ q h hopt, hvals]
        simp [numContrib, jsToNumber]
      · rw [computeScore_score_options _ q hall hopt,
          computeScore_score_options _ q h hopt, hvals]
        simp [optionContrib]
    have hrisk : (computeScore ((k, JsValue.vNull) :: answers) q).risk
        = (computeScore answers q).risk := by
      rw [computeScore_risk, computeScore_risk, hscore]
    rw [show computeScore ((k, JsValue.vNull) :: answers) q
        = ⟨(computeScore ((k, JsValue.vNull) :: answers) q).score,
           (computeScore ((k, JsValue.vNull) :: answers) q).risk⟩ from rfl, hscore, hrisk]
  · intro vs hmem
    cases hb : vs.all isYesNo with
    | false => rfl
    | true => exact absurd (List.all_eq_true.mp hb _ hmem) (by simp [isYesNo])
  · intro q k
    have hall : (answerValues [(k, JsValue.vNull)]).all isYesNo = false := rfl
    by_cases hopt : q.answerOptions = []
    · rw [computeScore_score_numeric _ q hall hopt]
      simp [answerValues, numContrib, jsToNumber]
    · rw [computeScore_score_options _ q hall hopt]
      simp [answerValues, optionContrib]

/-- C7 witness: a null answer next to a raw-number answer is dropped
without effect, and a lone null answer scores 0. -/
theorem claim_C7_witness :
    (answerValues [("q2", JsValue.vNum (JsNum.fin 5))]).all isYesNo = false
    ∧ computeScore [("q1", JsValue.vNull), ("q2", JsValue.vNum (JsNum.fin 5))] noRulesQ
        = computeScore [("q2", JsValue.vNum (JsNum.fin 5))] noRulesQ
    ∧ (computeScore [("k", JsValue.vNull)] noRulesQ).score = 0 :=
  ⟨by decide, claim_C7.1 noRulesQ "q1" [("q2", JsValue.vNum (JsNum.fin 5))] (by decide),
   claim_C7.2.2 noRulesQ "k"⟩

/-- C8 counterexample: on the legacy path, `{q1:"yes", q2:"no", q3:"yes"}`
does not produce score 2: `Number("yes")` is NaN, so the sum is NaN. -/
theorem claim_C8_counterexample :
    (computeMchatScore mchatAnswers).score ≠ JsNum.fin 2 := by decide

/-- C8 (amended): on the legacy scoring path, the answers
`{q1:"yes", q2:"no", q3:"yes"}` produce score NaN (each value coerces
through `Number` to NaN, which propagates through the sum) and risk "Low"
(every threshold comparison against NaN is false). -/
theorem claim_C8 : computeMchatScore mchatAnswers = ⟨JsNum.nan, "Low"⟩ := by decide

/-- C9: the engine is deterministic: two invocations on equal answer sets
and equal questionnaire definitions return equal results (the embedding is
a pure function of exactly these two arguments). -/
theorem claim_C9 (a1 a2 : List (String × JsValue)) (q1 q2 : Questionnaire)
    (ha : a1 = a2) (hq : q1 = q2) : computeScore a1 q1 = computeScore a2 q2 := by
  rw [ha, hq]

/-- C9 witness: repeated invocation on the example inputs. -/
theorem claim_C9_witness :
    computeScore (yesAnswers 3) exampleRulesQ = computeScore (yesAnswers 3) exampleRulesQ :=
  claim_C9 (yesAnswers 3) (yesAnswers 3) exampleRulesQ exampleRulesQ rfl rfl

/-- C10: off the binary path with a non-empty option list, the score is the
sum of per-value contributions of the option table, and every non-string
value (a raw number included) contributes exactly 0 there; raw numeric
values are summed only on the numeric path, taken when the option list is
empty, where a finite number value contributes exactly itself. -/
theorem claim_C10 :
    (∀ (answers : List (String × JsValue)) (q : Questionnaire),
       q.answerOptions ≠ [] → (answerValues answers).all isYesNo = false →
       (computeScore answers q).score
         = ((answerValues answers).map (optionContrib (buildOptionScoreMap q.answerOptions))).sum)
    ∧ (∀ (m : List (String × Nat)) (v : JsValue), JsValue.isStr v = false →
        optionContrib m v = 0)
    ∧ (∀ (answers : List (String × JsValue)) (q : Questionnaire),
       q.answerOptions = [] → (answerValues answers).all isYesNo = false →
       (computeScore answers q).score = ((answerValues answers).map numContrib).sum)
    ∧ (∀ n : ℚ, numContrib (JsValue.vNum (JsNum.fin n)) = n) := by
  refine ⟨fun answers q h2 h1 => computeScore_score_options answers q h1 h2, ?_,
    fun answers q h2 h1 => computeScore_score_numeric answers q h1 h2, fun n => rfl⟩
  intro m v hv
  cases v with
  | vStr s => simp [JsValue.isStr] at hv
  | vNum n => rfl
  | vBool b => rfl
  | vNull => rfl
  | vUndefined => rfl

/-- C10 witness: with options `["0 Never","1 Sometimes"]`, a raw number 1
(numerically equal to the decoded value of "1 Sometimes") contributes 0 and
the score comes only from the matched label, giving 1. -/
theorem claim_C10_witness :
    numMixQ.answerOptions ≠ []
    ∧ (answerValues numMixAnswers).all isYesNo = false
    ∧ (computeScore numMixAnswers numMixQ).score
        = ((answerValues numMixAnswers).map
            (optionContrib (buildOptionScoreMap numMixQ.answerOptions))).sum
    ∧ optionContrib (buildOptionScoreMap numMixQ.answerOptions) (JsValue.vNum (JsNum.fin 1)) = 0
    ∧ (computeScore numMixAnswers numMixQ).score = 1 :=
  ⟨by decide, by decide, claim_C10.1 numMixAnswers numMixQ (by decide) (by decide),
   claim_C10.2.1 (buildOptionScoreMap numMixQ.answerOptions) (JsValue.vNum (JsNum.fin 1)) rfl,
   by decide⟩

end ASD
